import Mathlib

/-!
Shallow embedding of `torchgeometry/conversions.py` (rotation-representation
conversion engine) and verification of its specified properties.

Machine floating-point numbers are modelled by real numbers; every batched
torch function operates independently on each batch element, so the batched
converters are embedded per element (one axis-angle vector, one 4x4 matrix,
one quaternion).  The numpy reference implementations are embedded separately
where a claim distinguishes the two paths.
-/

namespace TG

open Matrix

/-- `eps=1e-6`, the default epsilon of the three torch converters. -/
noncomputable def eps : ℝ := 1e-6

/-- `np.finfo(np.float32).eps = 2 ** (-23)`, the threshold used by
`angle_axis_to_rotation_matrix_numpy`. -/
noncomputable def npEps : ℝ := 1 / 8388608

/-- A 3-vector (axis-angle value, row of an `(N,3)` tensor). -/
structure V3 where
  x : ℝ
  y : ℝ
  z : ℝ

/-- A quaternion in scalar-first order `(w, x, y, z)`. -/
structure Q4 where
  w : ℝ
  x : ℝ
  y : ℝ
  z : ℝ

/-- 4x4 real matrix, the homogeneous rotation-matrix representation. -/
abbrev Mat4 := Matrix (Fin 4) (Fin 4) ℝ

/-- `torch.atan2 y x` / `np.arctan2 y x` : the argument of the complex
number `x + y*i`, in `(-π, π]`. -/
noncomputable def atan2 (y x : ℝ) : ℝ := Complex.arg ⟨x, y⟩

/-! ### `angle_axis_to_rotation_matrix_torch` (per batch element) -/

/-- `theta2 = torch.matmul(_angle_axis, _angle_axis.transpose(1, 2))`:
the squared norm of the axis-angle vector. -/
noncomputable def aa_theta2 (v : V3) : ℝ := v.x * v.x + v.y * v.y + v.z * v.z

/-- `mask_pos = (theta2 > eps).type_as(theta2)` for one element. -/
noncomputable def aa_mask_pos (v : V3) : ℝ := if aa_theta2 v > eps then 1 else 0

/-- `mask_neg = (mask == False).type_as(theta2)` for one element. -/
noncomputable def aa_mask_neg (v : V3) : ℝ := if aa_theta2 v > eps then 0 else 1

/-- `_compute_rotation_matrix`: the Rodrigues-formula branch, including the
`wxyz = angle_axis / (theta + eps)` zero-division guard. -/
noncomputable def rmat3_normal (v : V3) : Matrix (Fin 3) (Fin 3) ℝ :=
  let theta := Real.sqrt (aa_theta2 v)
  let wx := v.x / (theta + eps)
  let wy := v.y / (theta + eps)
  let wz := v.z / (theta + eps)
  let ct := Real.cos theta
  let st := Real.sin theta
  !![ct + wx * wx * (1 - ct), wx * wy * (1 - ct) - wz * st, wy * st + wx * wz * (1 - ct);
     wz * st + wx * wy * (1 - ct), ct + wy * wy * (1 - ct), -wx * st + wy * wz * (1 - ct);
     -wy * st + wx * wz * (1 - ct), wx * st + wy * wz * (1 - ct), ct + wz * wz * (1 - ct)]

/-- `_compute_rotation_matrix_taylor`: first-order Taylor branch. -/
noncomputable def rmat3_taylor (v : V3) : Matrix (Fin 3) (Fin 3) ℝ :=
  !![1, -v.z, v.y;
     v.z, 1, -v.x;
     -v.y, v.x, 1]

/-- The per-element masked blend
`mask_pos * rotation_matrix_normal + mask_neg * rotation_matrix_taylor`. -/
noncomputable def aa_blend (v : V3) (i j : Fin 3) : ℝ :=
  aa_mask_pos v * rmat3_normal v i j + aa_mask_neg v * rmat3_taylor v i j

/-- `angle_axis_to_rotation_matrix_torch` on one batch element: a 4x4
identity matrix whose top-left 3x3 block is overwritten with the masked
blend of the two branch results. -/
noncomputable def angle_axis_to_rotation_matrix_torch (v : V3) : Mat4 :=
  !![aa_blend v 0 0, aa_blend v 0 1, aa_blend v 0 2, 0;
     aa_blend v 1 0, aa_blend v 1 1, aa_blend v 1 2, 0;
     aa_blend v 2 0, aa_blend v 2 1, aa_blend v 2 2, 0;
     0, 0, 0, 1]

/-! ### `rotation_matrix_to_quaternion_torch` (per batch element)

The source first forms `rmat_t = torch.transpose(rotation_matrix, 1, 2)` and
then reads entries of `rmat_t`; below `Rᵀ i j` mirrors `rmat_t[:, i, j]`. -/

/-- `mask_c0 = mask_d2 * mask_d0_d1` as a 0/1 scalar
(`mask_d2 = rmat_t[:, 2, 2] < eps`, `mask_d0_d1 = rmat_t[:, 0, 0] > rmat_t[:, 1, 1]`). -/
noncomputable def mask_c0 (R : Mat4) : ℝ :=
  (if Rᵀ 2 2 < eps then 1 else 0) * (if Rᵀ 0 0 > Rᵀ 1 1 then 1 else 0)

/-- `mask_c1 = mask_d2 * (1 - mask_d0_d1)` as a 0/1 scalar. -/
noncomputable def mask_c1 (R : Mat4) : ℝ :=
  (if Rᵀ 2 2 < eps then 1 else 0) * (1 - (if Rᵀ 0 0 > Rᵀ 1 1 then 1 else 0))

/-- `mask_c2 = (1 - mask_d2) * mask_d0_nd1` as a 0/1 scalar
(`mask_d0_nd1 = rmat_t[:, 0, 0] < -rmat_t[:, 1, 1]`). -/
noncomputable def mask_c2 (R : Mat4) : ℝ :=
  (1 - (if Rᵀ 2 2 < eps then 1 else 0)) * (if Rᵀ 0 0 < -(Rᵀ 1 1) then 1 else 0)

/-- `mask_c3 = (1 - mask_d2) * (1 - mask_d0_nd1)` as a 0/1 scalar. -/
noncomputable def mask_c3 (R : Mat4) : ℝ :=
  (1 - (if Rᵀ 2 2 < eps then 1 else 0)) * (1 - (if Rᵀ 0 0 < -(Rᵀ 1 1) then 1 else 0))

/-- `t0 = 1 + rmat_t[:, 0, 0] - rmat_t[:, 1, 1] - rmat_t[:, 2, 2]`. -/
noncomputable def qt0 (R : Mat4) : ℝ := 1 + Rᵀ 0 0 - Rᵀ 1 1 - Rᵀ 2 2

/-- `t1 = 1 - rmat_t[:, 0, 0] + rmat_t[:, 1, 1] - rmat_t[:, 2, 2]`. -/
noncomputable def qt1 (R : Mat4) : ℝ := 1 - Rᵀ 0 0 + Rᵀ 1 1 - Rᵀ 2 2

/-- `t2 = 1 - rmat_t[:, 0, 0] - rmat_t[:, 1, 1] + rmat_t[:, 2, 2]`. -/
noncomputable def qt2 (R : Mat4) : ℝ := 1 - Rᵀ 0 0 - Rᵀ 1 1 + Rᵀ 2 2

/-- `t3 = 1 + rmat_t[:, 0, 0] + rmat_t[:, 1, 1] + rmat_t[:, 2, 2]`. -/
noncomputable def qt3 (R : Mat4) : ℝ := 1 + Rᵀ 0 0 + Rᵀ 1 1 + Rᵀ 2 2

/-- Branch-0 candidate `q0 = [rt12 - rt21, t0, rt01 + rt10, rt20 + rt02]`. -/
noncomputable def quatCand0 (R : Mat4) : Q4 :=
  ⟨Rᵀ 1 2 - Rᵀ 2 1, qt0 R, Rᵀ 0 1 + Rᵀ 1 0, Rᵀ 2 0 + Rᵀ 0 2⟩

/-- Branch-1 candidate `q1 = [rt20 - rt02, rt01 + rt10, t1, rt12 + rt21]`. -/
noncomputable def quatCand1 (R : Mat4) : Q4 :=
  ⟨Rᵀ 2 0 - Rᵀ 0 2, Rᵀ 0 1 + Rᵀ 1 0, qt1 R, Rᵀ 1 2 + Rᵀ 2 1⟩

/-- Branch-2 candidate `q2 = [rt01 - rt10, rt20 + rt02, rt12 + rt21, t2]`. -/
noncomputable def quatCand2 (R : Mat4) : Q4 :=
  ⟨Rᵀ 0 1 - Rᵀ 1 0, Rᵀ 2 0 + Rᵀ 0 2, Rᵀ 1 2 + Rᵀ 2 1, qt2 R⟩

/-- Branch-3 candidate `q3 = [t3, rt12 - rt21, rt20 - rt02, rt01 - rt10]`. -/
noncomputable def quatCand3 (R : Mat4) : Q4 :=
  ⟨qt3 R, Rᵀ 1 2 - Rᵀ 2 1, Rᵀ 2 0 - Rᵀ 0 2, Rᵀ 0 1 - Rᵀ 1 0⟩

/-- `q = q0 * mask_c0 + q1 * mask_c1 + q2 * mask_c2 + q3 * mask_c3`,
componentwise. -/
noncomputable def quatMaskedSum (R : Mat4) : Q4 :=
  ⟨(quatCand0 R).w * mask_c0 R + (quatCand1 R).w * mask_c1 R +
     (quatCand2 R).w * mask_c2 R + (quatCand3 R).w * mask_c3 R,
   (quatCand0 R).x * mask_c0 R + (quatCand1 R).x * mask_c1 R +
     (quatCand2 R).x * mask_c2 R + (quatCand3 R).x * mask_c3 R,
   (quatCand0 R).y * mask_c0 R + (quatCand1 R).y * mask_c1 R +
     (quatCand2 R).y * mask_c2 R + (quatCand3 R).y * mask_c3 R,
   (quatCand0 R).z * mask_c0 R + (quatCand1 R).z * mask_c1 R +
     (quatCand2 R).z * mask_c2 R + (quatCand3 R).z * mask_c3 R⟩

/-- `torch.sqrt(t0_rep * mask_c0 + t1_rep * mask_c1 + t2_rep * mask_c2 +
t3_rep * mask_c3)`: the square root of the masked pivot. -/
noncomputable def quatDenom (R : Mat4) : ℝ :=
  Real.sqrt (qt0 R * mask_c0 R + qt1 R * mask_c1 R + qt2 R * mask_c2 R + qt3 R * mask_c3 R)

/-- `rotation_matrix_to_quaternion_torch` on one batch element:
`q /= torch.sqrt(...); q *= 0.5`. -/
noncomputable def rotation_matrix_to_quaternion_torch (R : Mat4) : Q4 :=
  ⟨0.5 * ((quatMaskedSum R).w / quatDenom R),
   0.5 * ((quatMaskedSum R).x / quatDenom R),
   0.5 * ((quatMaskedSum R).y / quatDenom R),
   0.5 * ((quatMaskedSum R).z / quatDenom R)⟩

/-! ### `quaternion_to_angle_axis_torch` (per batch element) -/

/-- `normalizer = 1 / torch.norm(quaternion, dim=1)`. -/
noncomputable def qaaNormalizer (q : Q4) : ℝ :=
  1 / Real.sqrt (q.w * q.w + q.x * q.x + q.y * q.y + q.z * q.z)

/-- `q1 = quaternion[:, 1] * normalizer`. -/
noncomputable def qaa1 (q : Q4) : ℝ := q.x * qaaNormalizer q

/-- `q2 = quaternion[:, 2] * normalizer`. -/
noncomputable def qaa2 (q : Q4) : ℝ := q.y * qaaNormalizer q

/-- `q3 = quaternion[:, 3] * normalizer`. -/
noncomputable def qaa3 (q : Q4) : ℝ := q.z * qaaNormalizer q

/-- `sin_squared = q1 * q1 + q2 * q2 + q3 * q3`. -/
noncomputable def sinSquared (q : Q4) : ℝ :=
  qaa1 q * qaa1 q + qaa2 q * qaa2 q + qaa3 q * qaa3 q

/-- `mask_pos = (sin_squared > eps).type_as(sin_squared)`. -/
noncomputable def qaaMaskPos (q : Q4) : ℝ := if sinSquared q > eps then 1 else 0

/-- `mask_neg = (mask == False).type_as(sin_squared)`. -/
noncomputable def qaaMaskNeg (q : Q4) : ℝ := if sinSquared q > eps then 0 else 1

/-- `sin_theta = torch.sqrt(sin_squared)`. -/
noncomputable def qaaSinTheta (q : Q4) : ℝ := Real.sqrt (sinSquared q)

/-- `cos_theta = quaternion[:, 0] * normalizer`. -/
noncomputable def qaaCosTheta (q : Q4) : ℝ := q.w * qaaNormalizer q

/-- `mask_theta_neg = (cos_theta < eps).type_as(cos_theta)`. -/
noncomputable def qaaMaskThetaNeg (q : Q4) : ℝ := if qaaCosTheta q < eps then 1 else 0

/-- `mask_theta_pos = (mask_theta == False).type_as(cos_theta)`. -/
noncomputable def qaaMaskThetaPos (q : Q4) : ℝ := if qaaCosTheta q < eps then 0 else 1

/-- `theta = atan2(-sin_theta, -cos_theta) * mask_theta_neg
           + atan2(sin_theta, cos_theta) * mask_theta_pos`. -/
noncomputable def qaaTheta (q : Q4) : ℝ :=
  atan2 (-qaaSinTheta q) (-qaaCosTheta q) * qaaMaskThetaNeg q +
    atan2 (qaaSinTheta q) (qaaCosTheta q) * qaaMaskThetaPos q

/-- `k = k_neg * mask_neg + k_pos * mask_pos` with `k_neg = 2.0` and
`k_pos = two_theta / sin_theta`. -/
noncomputable def qaaK (q : Q4) : ℝ :=
  2 * qaaMaskNeg q + (2 * qaaTheta q / qaaSinTheta q) * qaaMaskPos q

/-- `quaternion_to_angle_axis_torch` on one batch element:
`angle_axis[:, i] = q_i * k`. -/
noncomputable def quaternion_to_angle_axis_torch (q : Q4) : V3 :=
  ⟨qaa1 q * qaaK q, qaa2 q * qaaK q, qaa3 q * qaaK q⟩

/-- `rotation_matrix_to_angle_axis` on a tensor input: the composition
`quaternion_to_angle_axis (rotation_matrix_to_quaternion rotation_matrix)`
with both dispatchers taking their torch branch. -/
noncomputable def rotation_matrix_to_angle_axis (R : Mat4) : V3 :=
  quaternion_to_angle_axis_torch (rotation_matrix_to_quaternion_torch R)

/-- The axis-angle round trip
`rotation_matrix_to_angle_axis (angle_axis_to_rotation_matrix v)` on one
batch element (torch path throughout). -/
noncomputable def aaRoundTrip (v : V3) : V3 :=
  rotation_matrix_to_angle_axis (angle_axis_to_rotation_matrix_torch v)

/-! ### `quaternion_to_angle_axis_numpy` (scalar reference path) -/

/-- `quaternion_to_angle_axis_numpy`: the scalar reference implementation,
with real `if` control flow (`sin_squared > 0`, `cos_theta < 0.0`). -/
noncomputable def quaternion_to_angle_axis_numpy (q : Q4) : V3 :=
  let normalizer := 1 / Real.sqrt (q.w * q.w + q.x * q.x + q.y * q.y + q.z * q.z)
  let q1 := q.x * normalizer
  let q2 := q.y * normalizer
  let q3 := q.z * normalizer
  let s2 := q1 * q1 + q2 * q2 + q3 * q3
  if 0 < s2 then
    let st := Real.sqrt s2
    let ct := q.w * normalizer
    let th := if ct < 0 then atan2 (-st) (-ct) else atan2 st ct
    ⟨q1 * (2 * th / st), q2 * (2 * th / st), q3 * (2 * th / st)⟩
  else
    ⟨q1 * 2, q2 * 2, q3 * 2⟩

/-! ### Branch-reduction lemmas for `rotation_matrix_to_quaternion_torch` -/

/-- Branch 0 (`R22 < eps`, `R00 > R11`): the masked combination collapses to
the `q0`/`t0` candidate. -/
lemma rmq_eq_branch0 (R : Mat4) (h2 : R 2 2 < eps) (h01 : R 1 1 < R 0 0) :
    rotation_matrix_to_quaternion_torch R =
      ⟨0.5 * ((R 2 1 - R 1 2) / Real.sqrt (1 + R 0 0 - R 1 1 - R 2 2)),
       0.5 * ((1 + R 0 0 - R 1 1 - R 2 2) / Real.sqrt (1 + R 0 0 - R 1 1 - R 2 2)),
       0.5 * ((R 1 0 + R 0 1) / Real.sqrt (1 + R 0 0 - R 1 1 - R 2 2)),
       0.5 * ((R 0 2 + R 2 0) / Real.sqrt (1 + R 0 0 - R 1 1 - R 2 2))⟩ := by
  simp [rotation_matrix_to_quaternion_torch, quatMaskedSum, quatDenom,
    quatCand0, quatCand1, quatCand2, quatCand3, qt0, qt1, qt2, qt3,
    mask_c0, mask_c1, mask_c2, mask_c3, Matrix.transpose_apply, h2, h01]

/-- Branch 1 (`R22 < eps`, `R00 ≤ R11`): the masked combination collapses to
the `q1`/`t1` candidate. -/
lemma rmq_eq_branch1 (R : Mat4) (h2 : R 2 2 < eps) (h01 : ¬ R 1 1 < R 0 0) :
    rotation_matrix_to_quaternion_torch R =
      ⟨0.5 * ((R 0 2 - R 2 0) / Real.sqrt (1 - R 0 0 + R 1 1 - R 2 2)),
       0.5 * ((R 1 0 + R 0 1) / Real.sqrt (1 - R 0 0 + R 1 1 - R 2 2)),
       0.5 * ((1 - R 0 0 + R 1 1 - R 2 2) / Real.sqrt (1 - R 0 0 + R 1 1 - R 2 2)),
       0.5 * ((R 2 1 + R 1 2) / Real.sqrt (1 - R 0 0 + R 1 1 - R 2 2))⟩ := by
  simp [rotation_matrix_to_quaternion_torch, quatMaskedSum, quatDenom,
    quatCand0, quatCand1, quatCand2, quatCand3, qt0, qt1, qt2, qt3,
    mask_c0, mask_c1, mask_c2, mask_c3, Matrix.transpose_apply, h2, h01]

/-- Branch 2 (`R22 ≥ eps`, `R00 < -R11`): the masked combination collapses to
the `q2`/`t2` candidate. -/
lemma rmq_eq_branch2 (R : Mat4) (h2 : ¬ R 2 2 < eps) (h01 : R 0 0 < -(R 1 1)) :
    rotation_matrix_to_quaternion_torch R =
      ⟨0.5 * ((R 1 0 - R 0 1) / Real.sqrt (1 - R 0 0 - R 1 1 + R 2 2)),
       0.5 * ((R 0 2 + R 2 0) / Real.sqrt (1 - R 0 0 - R 1 1 + R 2 2)),
       0.5 * ((R 2 1 + R 1 2) / Real.sqrt (1 - R 0 0 - R 1 1 + R 2 2)),
       0.5 * ((1 - R 0 0 - R 1 1 + R 2 2) / Real.sqrt (1 - R 0 0 - R 1 1 + R 2 2))⟩ := by
  simp [rotation_matrix_to_quaternion_torch, quatMaskedSum, quatDenom,
    quatCand0, quatCand1, quatCand2, quatCand3, qt0, qt1, qt2, qt3,
    mask_c0, mask_c1, mask_c2, mask_c3, Matrix.transpose_apply, h2, h01]

/-- Branch 3 (`R22 ≥ eps`, `R00 ≥ -R11`): the masked combination collapses to
the `q3`/`t3` candidate. -/
lemma rmq_eq_branch3 (R : Mat4) (h2 : ¬ R 2 2 < eps) (h01 : ¬ R 0 0 < -(R 1 1)) :
    rotation_matrix_to_quaternion_torch R =
      ⟨0.5 * ((1 + R 0 0 + R 1 1 + R 2 2) / Real.sqrt (1 + R 0 0 + R 1 1 + R 2 2)),
       0.5 * ((R 2 1 - R 1 2) / Real.sqrt (1 + R 0 0 + R 1 1 + R 2 2)),
       0.5 * ((R 0 2 - R 2 0) / Real.sqrt (1 + R 0 0 + R 1 1 + R 2 2)),
       0.5 * ((R 1 0 - R 0 1) / Real.sqrt (1 + R 0 0 + R 1 1 + R 2 2))⟩ := by
  simp [rotation_matrix_to_quaternion_torch, quatMaskedSum, quatDenom,
    quatCand0, quatCand1, quatCand2, quatCand3, qt0, qt1, qt2, qt3,
    mask_c0, mask_c1, mask_c2, mask_c3, Matrix.transpose_apply, h2, h01]

/-- C2: for every input matrix, exactly one of the four spec-named branches is
selected — branch 0 when `R22 < ε` and `R00 > R11`, branch 1 when `R22 < ε`
and `R00 ≤ R11`, branch 2 when `R22 ≥ ε` and `R00 < -R11`, branch 3
otherwise — and the resulting quaternion is the chosen branch's candidate
(sums/differences of off-diagonal entries, and the pivot itself) divided by
the square root of the chosen pivot `t` and scaled by `0.5`. -/
theorem rmq_branch_selection (R : Mat4) :
    rotation_matrix_to_quaternion_torch R =
      if R 2 2 < eps then
        (if R 1 1 < R 0 0 then
          ⟨0.5 * ((R 2 1 - R 1 2) / Real.sqrt (1 + R 0 0 - R 1 1 - R 2 2)),
           0.5 * ((1 + R 0 0 - R 1 1 - R 2 2) / Real.sqrt (1 + R 0 0 - R 1 1 - R 2 2)),
           0.5 * ((R 1 0 + R 0 1) / Real.sqrt (1 + R 0 0 - R 1 1 - R 2 2)),
           0.5 * ((R 0 2 + R 2 0) / Real.sqrt (1 + R 0 0 - R 1 1 - R 2 2))⟩
        else
          ⟨0.5 * ((R 0 2 - R 2 0) / Real.sqrt (1 - R 0 0 + R 1 1 - R 2 2)),
           0.5 * ((R 1 0 + R 0 1) / Real.sqrt (1 - R 0 0 + R 1 1 - R 2 2)),
           0.5 * ((1 - R 0 0 + R 1 1 - R 2 2) / Real.sqrt (1 - R 0 0 + R 1 1 - R 2 2)),
           0.5 * ((R 2 1 + R 1 2) / Real.sqrt (1 - R 0 0 + R 1 1 - R 2 2))⟩)
      else
        (if R 0 0 < -(R 1 1) then
          ⟨0.5 * ((R 1 0 - R 0 1) / Real.sqrt (1 - R 0 0 - R 1 1 + R 2 2)),
           0.5 * ((R 0 2 + R 2 0) / Real.sqrt (1 - R 0 0 - R 1 1 + R 2 2)),
           0.5 * ((R 2 1 + R 1 2) / Real.sqrt (1 - R 0 0 - R 1 1 + R 2 2)),
           0.5 * ((1 - R 0 0 - R 1 1 + R 2 2) / Real.sqrt (1 - R 0 0 - R 1 1 + R 2 2))⟩
        else
          ⟨0.5 * ((1 + R 0 0 + R 1 1 + R 2 2) / Real.sqrt (1 + R 0 0 + R 1 1 + R 2 2)),
           0.5 * ((R 2 1 - R 1 2) / Real.sqrt (1 + R 0 0 + R 1 1 + R 2 2)),
           0.5 * ((R 0 2 - R 2 0) / Real.sqrt (1 + R 0 0 + R 1 1 + R 2 2)),
           0.5 * ((R 1 0 - R 0 1) / Real.sqrt (1 + R 0 0 + R 1 1 + R 2 2))⟩) := by
  by_cases h2 : R 2 2 < eps
  · by_cases h01 : R 1 1 < R 0 0
    · rw [if_pos h2, if_pos h01, rmq_eq_branch0 R h2 h01]
    · rw [if_pos h2, if_neg h01, rmq_eq_branch1 R h2 h01]
  · by_cases h01 : R 0 0 < -(R 1 1)
    · rw [if_neg h2, if_pos h01, rmq_eq_branch2 R h2 h01]
    · rw [if_neg h2, if_neg h01, rmq_eq_branch3 R h2 h01]

/-- C10: the four per-element selection masks are a partition — for every
input matrix exactly one of `mask_c0 … mask_c3` equals 1 and the other three
equal 0 — and the masked sum of the four candidate quaternions equals exactly
the selected branch's candidate. -/
theorem masks_partition (R : Mat4) :
    (mask_c0 R = 1 ∧ mask_c1 R = 0 ∧ mask_c2 R = 0 ∧ mask_c3 R = 0 ∧
       quatMaskedSum R = quatCand0 R) ∨
    (mask_c0 R = 0 ∧ mask_c1 R = 1 ∧ mask_c2 R = 0 ∧ mask_c3 R = 0 ∧
       quatMaskedSum R = quatCand1 R) ∨
    (mask_c0 R = 0 ∧ mask_c1 R = 0 ∧ mask_c2 R = 1 ∧ mask_c3 R = 0 ∧
       quatMaskedSum R = quatCand2 R) ∨
    (mask_c0 R = 0 ∧ mask_c1 R = 0 ∧ mask_c2 R = 0 ∧ mask_c3 R = 1 ∧
       quatMaskedSum R = quatCand3 R) := by
  by_cases h2 : R 2 2 < eps
  · by_cases h01 : R 1 1 < R 0 0
    · exact Or.inl (by
        simp [mask_c0, mask_c1, mask_c2, mask_c3, quatMaskedSum,
          Matrix.transpose_apply, h2, h01])
    · exact Or.inr (Or.inl (by
        simp [mask_c0, mask_c1, mask_c2, mask_c3, quatMaskedSum,
          Matrix.transpose_apply, h2, h01]))
  · by_cases h01 : R 0 0 < -(R 1 1)
    · exact Or.inr (Or.inr (Or.inl (by
        simp [mask_c0, mask_c1, mask_c2, mask_c3, quatMaskedSum,
          Matrix.transpose_apply, h2, h01])))
    · exact Or.inr (Or.inr (Or.inr (by
        simp [mask_c0, mask_c1, mask_c2, mask_c3, quatMaskedSum,
          Matrix.transpose_apply, h2, h01])))

/-- C4: for every quaternion input with nonzero norm whose normalized vector
part satisfies `sin_squared = q1² + q2² + q3² ≤ eps`, the blend factor is
`k = 2` exactly and the result is `2 * (q1, q2, q3)`; the `k_pos` term built
from the vanishing `sin_theta` is wiped out by the zero mask and never
affects the result. -/
theorem qaa_taylor_branch (q : Q4)
    (hn : Real.sqrt (q.w * q.w + q.x * q.x + q.y * q.y + q.z * q.z) ≠ 0)
    (hs : sinSquared q ≤ eps) :
    qaaK q = 2 ∧
      quaternion_to_angle_axis_torch q = ⟨2 * qaa1 q, 2 * qaa2 q, 2 * qaa3 q⟩ := by
  have hmask : ¬ sinSquared q > eps := not_lt.mpr hs
  have hk : qaaK q = 2 := by
    simp [qaaK, qaaMaskNeg, qaaMaskPos, hmask]
  exact ⟨hk, by simp [quaternion_to_angle_axis_torch, hk, mul_comm]⟩

/-- Witness for `qaa_taylor_branch` at the identity quaternion `(1,0,0,0)`. -/
theorem qaa_taylor_branch_witness :
    Real.sqrt ((1 : ℝ) * 1 + 0 * 0 + 0 * 0 + 0 * 0) ≠ 0 ∧
      sinSquared ⟨1, 0, 0, 0⟩ ≤ eps ∧
      (qaaK ⟨1, 0, 0, 0⟩ = 2 ∧
        quaternion_to_angle_axis_torch ⟨1, 0, 0, 0⟩ =
          ⟨2 * qaa1 ⟨1, 0, 0, 0⟩, 2 * qaa2 ⟨1, 0, 0, 0⟩, 2 * qaa3 ⟨1, 0, 0, 0⟩⟩) := by
  have h1 : Real.sqrt ((1 : ℝ) * 1 + 0 * 0 + 0 * 0 + 0 * 0) ≠ 0 := by
    rw [show (1 : ℝ) * 1 + 0 * 0 + 0 * 0 + 0 * 0 = 1 by norm_num, Real.sqrt_one]
    exact one_ne_zero
  have h2 : sinSquared ⟨1, 0, 0, 0⟩ ≤ eps := by
    simp [sinSquared, qaa1, qaa2, qaa3, qaaNormalizer]
    norm_num [eps]
  exact ⟨h1, h2, qaa_taylor_branch ⟨1, 0, 0, 0⟩ h1 h2⟩

/-- C5: `angle_axis_to_rotation_matrix_torch` maps the zero vector to the 4x4
identity matrix exactly, and for every input with `theta2 ≤ eps` the
degenerate (Taylor) branch wins: the rotation block's diagonal is 1 and its
off-diagonal entries are plus/minus the input's components. -/
theorem aa_identity_and_taylor :
    angle_axis_to_rotation_matrix_torch ⟨0, 0, 0⟩ = 1 ∧
      ∀ v : V3, aa_theta2 v ≤ eps →
        (angle_axis_to_rotation_matrix_torch v 0 0 = 1 ∧
         angle_axis_to_rotation_matrix_torch v 1 1 = 1 ∧
         angle_axis_to_rotation_matrix_torch v 2 2 = 1 ∧
         angle_axis_to_rotation_matrix_torch v 0 1 = -v.z ∧
         angle_axis_to_rotation_matrix_torch v 0 2 = v.y ∧
         angle_axis_to_rotation_matrix_torch v 1 0 = v.z ∧
         angle_axis_to_rotation_matrix_torch v 1 2 = -v.x ∧
         angle_axis_to_rotation_matrix_torch v 2 0 = -v.y ∧
         angle_axis_to_rotation_matrix_torch v 2 1 = v.x) := by
  have hzero : ¬ aa_theta2 (⟨0, 0, 0⟩ : V3) > eps := by
    simp [aa_theta2]
    norm_num [eps]
  constructor
  · ext i j
    fin_cases i <;> fin_cases j <;>
      simp [angle_axis_to_rotation_matrix_torch, aa_blend, aa_mask_pos,
        aa_mask_neg, rmat3_taylor, hzero, Matrix.one_apply,
        Matrix.vecHead, Matrix.vecTail, Function.comp]
  · intro v hv
    have hmask : ¬ aa_theta2 v > eps := not_lt.mpr hv
    refine ⟨?_, ?_, ?_, ?_, ?_, ?_, ?_, ?_, ?_⟩ <;>
      simp [angle_axis_to_rotation_matrix_torch, aa_blend, aa_mask_pos,
        aa_mask_neg, rmat3_taylor, hmask]

/-- Witness for `aa_identity_and_taylor` at the small vector
`(1/2000, 0, 0)` (where `theta2 = 1/4000000 ≤ eps`). -/
theorem aa_identity_and_taylor_witness :
    aa_theta2 ⟨1 / 2000, 0, 0⟩ ≤ eps ∧
      (angle_axis_to_rotation_matrix_torch ⟨1 / 2000, 0, 0⟩ 0 0 = 1 ∧
       angle_axis_to_rotation_matrix_torch ⟨1 / 2000, 0, 0⟩ 1 1 = 1 ∧
       angle_axis_to_rotation_matrix_torch ⟨1 / 2000, 0, 0⟩ 2 2 = 1 ∧
       angle_axis_to_rotation_matrix_torch ⟨1 / 2000, 0, 0⟩ 0 1 = -(⟨1 / 2000, 0, 0⟩ : V3).z ∧
       angle_axis_to_rotation_matrix_torch ⟨1 / 2000, 0, 0⟩ 0 2 = (⟨1 / 2000, 0, 0⟩ : V3).y ∧
       angle_axis_to_rotation_matrix_torch ⟨1 / 2000, 0, 0⟩ 1 0 = (⟨1 / 2000, 0, 0⟩ : V3).z ∧
       angle_axis_to_rotation_matrix_torch ⟨1 / 2000, 0, 0⟩ 1 2 = -(⟨1 / 2000, 0, 0⟩ : V3).x ∧
       angle_axis_to_rotation_matrix_torch ⟨1 / 2000, 0, 0⟩ 2 0 = -(⟨1 / 2000, 0, 0⟩ : V3).y ∧
       angle_axis_to_rotation_matrix_torch ⟨1 / 2000, 0, 0⟩ 2 1 = (⟨1 / 2000, 0, 0⟩ : V3).x) := by
  have h : aa_theta2 ⟨1 / 2000, 0, 0⟩ ≤ eps := by
    simp [aa_theta2]
    norm_num [eps]
  exact ⟨h, aa_identity_and_taylor.2 ⟨1 / 2000, 0, 0⟩ h⟩

/-! ### C3: the extracted quaternion of a rotation matrix has unit norm -/

/-- The Euclidean norm of a quaternion. -/
noncomputable def qnorm (q : Q4) : ℝ :=
  Real.sqrt (q.w * q.w + q.x * q.x + q.y * q.y + q.z * q.z)

/-- The top-left 3x3 rotation block of a 4x4 homogeneous matrix (the only
entries `rotation_matrix_to_quaternion_torch` reads). -/
def rblock (R : Mat4) : Matrix (Fin 3) (Fin 3) ℝ :=
  Matrix.of fun i j => R (Fin.castLE (by omega) i) (Fin.castLE (by omega) j)

lemma rblock_00 (R : Mat4) : rblock R 0 0 = R 0 0 := rfl

lemma rblock_01 (R : Mat4) : rblock R 0 1 = R 0 1 := rfl

lemma rblock_02 (R : Mat4) : rblock R 0 2 = R 0 2 := rfl

lemma rblock_10 (R : Mat4) : rblock R 1 0 = R 1 0 := rfl

lemma rblock_11 (R : Mat4) : rblock R 1 1 = R 1 1 := rfl

lemma rblock_12 (R : Mat4) : rblock R 1 2 = R 1 2 := rfl

lemma rblock_20 (R : Mat4) : rblock R 2 0 = R 2 0 := rfl

lemma rblock_21 (R : Mat4) : rblock R 2 1 = R 2 1 := rfl

lemma rblock_22 (R : Mat4) : rblock R 2 2 = R 2 2 := rfl

/-- Norm of a quaternion whose components all have the shape
`0.5 * (u_i / √t)` with `u0² + u1² + u2² + u3² = 4t`. -/
lemma qnorm_half_div_sqrt (u0 u1 u2 u3 t : ℝ) (ht : 0 < t)
    (hS : u0 * u0 + u1 * u1 + u2 * u2 + u3 * u3 = 4 * t) :
    qnorm ⟨0.5 * (u0 / Real.sqrt t), 0.5 * (u1 / Real.sqrt t),
           0.5 * (u2 / Real.sqrt t), 0.5 * (u3 / Real.sqrt t)⟩ = 1 := by
  have hss : Real.sqrt t * Real.sqrt t = t := Real.mul_self_sqrt ht.le
  have hne : Real.sqrt t ≠ 0 := ne_of_gt (Real.sqrt_pos.mpr ht)
  have hinner : 0.5 * (u0 / Real.sqrt t) * (0.5 * (u0 / Real.sqrt t)) +
      0.5 * (u1 / Real.sqrt t) * (0.5 * (u1 / Real.sqrt t)) +
      0.5 * (u2 / Real.sqrt t) * (0.5 * (u2 / Real.sqrt t)) +
      0.5 * (u3 / Real.sqrt t) * (0.5 * (u3 / Real.sqrt t)) = 1 := by
    field_simp
    linear_combination (1 / 4 : ℝ) * hS
  simp only [qnorm, hinner, Real.sqrt_one]

/-- C3: for every valid rotation matrix (orthonormal 3x3 block with
determinant 1), the quaternion produced by
`rotation_matrix_to_quaternion_torch` has norm 1 (hence within `1e-6`
of 1). -/
theorem rmq_unit_norm (R : Mat4)
    (horth : (rblock R)ᵀ * rblock R = 1) (hdet : (rblock R).det = 1) :
    |qnorm (rotation_matrix_to_quaternion_torch R) - 1| ≤ 1e-6 := by
  -- column orthonormality (diagonal entries of `Bᵀ B = 1`)
  have hc0 : R 0 0 * R 0 0 + R 1 0 * R 1 0 + R 2 0 * R 2 0 = 1 := by
    have h := congrFun (congrFun horth 0) 0
    simp only [Matrix.mul_apply, Fin.sum_univ_three, Matrix.transpose_apply,
      Matrix.one_apply_eq] at h
    simpa [rblock] using h
  have hc1 : R 0 1 * R 0 1 + R 1 1 * R 1 1 + R 2 1 * R 2 1 = 1 := by
    have h := congrFun (congrFun horth 1) 1
    simp only [Matrix.mul_apply, Fin.sum_univ_three, Matrix.transpose_apply,
      Matrix.one_apply_eq] at h
    simpa [rblock] using h
  have hc2 : R 0 2 * R 0 2 + R 1 2 * R 1 2 + R 2 2 * R 2 2 = 1 := by
    have h := congrFun (congrFun horth 2) 2
    simp only [Matrix.mul_apply, Fin.sum_univ_three, Matrix.transpose_apply,
      Matrix.one_apply_eq] at h
    simpa [rblock] using h
  -- the adjugate of an orthogonal determinant-1 matrix is its transpose
  have hBBt : rblock R * (rblock R)ᵀ = 1 := Matrix.mul_eq_one_comm.mp horth
  have hadj : Matrix.adjugate (rblock R) = (rblock R)ᵀ := by
    calc Matrix.adjugate (rblock R)
        = Matrix.adjugate (rblock R) * (rblock R * (rblock R)ᵀ) := by
          rw [hBBt, Matrix.mul_one]
      _ = (Matrix.adjugate (rblock R) * rblock R) * (rblock R)ᵀ := by
          rw [Matrix.mul_assoc]
      _ = ((rblock R).det • (1 : Matrix (Fin 3) (Fin 3) ℝ)) * (rblock R)ᵀ := by
          rw [Matrix.adjugate_mul]
      _ = (rblock R)ᵀ := by rw [hdet, one_smul, Matrix.one_mul]
  rw [Matrix.adjugate_fin_three] at hadj
  -- the three diagonal cofactor identities
  have h00 : R 1 1 * R 2 2 - R 1 2 * R 2 1 = R 0 0 := by
    have h := congrFun (congrFun hadj 0) 0
    simp only [Matrix.transpose_apply] at h
    simp only [Matrix.cons_val_zero, Matrix.cons_val_one, Matrix.head_cons,
      Matrix.of_apply, Matrix.cons_val', Matrix.empty_val'] at h
    simpa [rblock] using h
  have h11 : R 0 0 * R 2 2 - R 0 2 * R 2 0 = R 1 1 := by
    have h := congrFun (congrFun hadj 1) 1
    simp only [Matrix.transpose_apply] at h
    simp only [Matrix.cons_val_zero, Matrix.cons_val_one, Matrix.head_cons,
      Matrix.of_apply, Matrix.cons_val', Matrix.empty_val'] at h
    simpa [rblock] using h
  have h22 : R 0 0 * R 1 1 - R 0 1 * R 1 0 = R 2 2 := by
    have h := congrFun (congrFun hadj 2) 2
    simp only [Matrix.transpose_apply] at h
    simp only [Matrix.cons_val_zero, Matrix.cons_val_one, Matrix.head_cons,
      Matrix.of_apply, Matrix.cons_val', Matrix.empty_val'] at h
    simpa [rblock] using h
  have heps : eps = 1e-6 := rfl
  by_cases h2 : R 2 2 < eps
  · rw [heps] at h2
    by_cases h01 : R 1 1 < R 0 0
    · rw [rmq_eq_branch0 R (by rw [heps]; exact h2) h01]
      have ht : (0 : ℝ) < 1 + R 0 0 - R 1 1 - R 2 2 := by nlinarith [h2, h01]
      have hS : (R 2 1 - R 1 2) * (R 2 1 - R 1 2) +
          (1 + R 0 0 - R 1 1 - R 2 2) * (1 + R 0 0 - R 1 1 - R 2 2) +
          (R 1 0 + R 0 1) * (R 1 0 + R 0 1) +
          (R 0 2 + R 2 0) * (R 0 2 + R 2 0) =
          4 * (1 + R 0 0 - R 1 1 - R 2 2) := by
        linear_combination hc0 + hc1 + hc2 + 2 * h00 - 2 * h11 - 2 * h22
      rw [qnorm_half_div_sqrt _ _ _ _ _ ht hS]
      norm_num
    · rw [rmq_eq_branch1 R (by rw [heps]; exact h2) h01]
      push_neg at h01
      have ht : (0 : ℝ) < 1 - R 0 0 + R 1 1 - R 2 2 := by nlinarith [h2, h01]
      have hS : (R 0 2 - R 2 0) * (R 0 2 - R 2 0) +
          (R 1 0 + R 0 1) * (R 1 0 + R 0 1) +
          (1 - R 0 0 + R 1 1 - R 2 2) * (1 - R 0 0 + R 1 1 - R 2 2) +
          (R 2 1 + R 1 2) * (R 2 1 + R 1 2) =
          4 * (1 - R 0 0 + R 1 1 - R 2 2) := by
        linear_combination hc0 + hc1 + hc2 - 2 * h00 + 2 * h11 - 2 * h22
      rw [qnorm_half_div_sqrt _ _ _ _ _ ht hS]
      norm_num
  · have h2' : eps ≤ R 2 2 := not_lt.mp h2
    rw [heps] at h2'
    by_cases h01 : R 0 0 < -(R 1 1)
    · rw [rmq_eq_branch2 R h2 h01]
      have ht : (0 : ℝ) < 1 - R 0 0 - R 1 1 + R 2 2 := by nlinarith [h2', h01]
      have hS : (R 1 0 - R 0 1) * (R 1 0 - R 0 1) +
          (R 0 2 + R 2 0) * (R 0 2 + R 2 0) +
          (R 2 1 + R 1 2) * (R 2 1 + R 1 2) +
          (1 - R 0 0 - R 1 1 + R 2 2) * (1 - R 0 0 - R 1 1 + R 2 2) =
          4 * (1 - R 0 0 - R 1 1 + R 2 2) := by
        linear_combination hc0 + hc1 + hc2 - 2 * h00 - 2 * h11 + 2 * h22
      rw [qnorm_half_div_sqrt _ _ _ _ _ ht hS]
      norm_num
    · rw [rmq_eq_branch3 R h2 h01]
      push_neg at h01
      have ht : (0 : ℝ) < 1 + R 0 0 + R 1 1 + R 2 2 := by nlinarith [h2', h01]
      have hS : (1 + R 0 0 + R 1 1 + R 2 2) * (1 + R 0 0 + R 1 1 + R 2 2) +
          (R 2 1 - R 1 2) * (R 2 1 - R 1 2) +
          (R 0 2 - R 2 0) * (R 0 2 - R 2 0) +
          (R 1 0 - R 0 1) * (R 1 0 - R 0 1) =
          4 * (1 + R 0 0 + R 1 1 + R 2 2) := by
        linear_combination hc0 + hc1 + hc2 + 2 * h00 + 2 * h11 + 2 * h22
      rw [qnorm_half_div_sqrt _ _ _ _ _ ht hS]
      norm_num

/-- Witness for `rmq_unit_norm` at the identity rotation. -/
theorem rmq_unit_norm_witness :
    (rblock (1 : Mat4))ᵀ * rblock (1 : Mat4) = 1 ∧ (rblock (1 : Mat4)).det = 1 ∧
      |qnorm (rotation_matrix_to_quaternion_torch (1 : Mat4)) - 1| ≤ 1e-6 := by
  have hb : rblock (1 : Mat4) = (1 : Matrix (Fin 3) (Fin 3) ℝ) := by
    ext i j
    fin_cases i <;> fin_cases j <;> simp [rblock, Matrix.one_apply]
  have horth : (rblock (1 : Mat4))ᵀ * rblock (1 : Mat4) = 1 := by
    rw [hb]; simp
  have hdet : (rblock (1 : Mat4)).det = 1 := by rw [hb]; simp
  exact ⟨horth, hdet, rmq_unit_norm 1 horth hdet⟩

/-! ### C6: double cover `quaternionToAxisAngle q ≈ quaternionToAxisAngle (-q)` -/

lemma atan2_one_zero : atan2 1 0 = Real.pi / 2 := by
  have h : ((⟨0, 1⟩ : ℂ)) = Complex.I := by
    apply Complex.ext <;> simp
  rw [atan2, h, Complex.arg_I]

lemma atan2_neg_one_zero : atan2 (-1) 0 = -(Real.pi / 2) := by
  have h : ((⟨0, -1⟩ : ℂ)) = -Complex.I := by
    apply Complex.ext <;> simp
  rw [atan2, h, Complex.arg_neg_I]

/-- Negating the `y` argument of `atan2` negates the angle when the `x`
argument is nonnegative. -/
lemma atan2_neg_y (s w : ℝ) (hw : 0 ≤ w) : atan2 (-s) w = -atan2 s w := by
  unfold atan2
  rw [Complex.arg_of_re_nonneg (by simpa using hw),
    Complex.arg_of_re_nonneg (by simpa using hw)]
  have habs : Complex.abs ⟨w, -s⟩ = Complex.abs ⟨w, s⟩ := by
    rw [Complex.abs_apply, Complex.abs_apply, Complex.normSq_mk, Complex.normSq_mk]
    simp only [neg_mul_neg]
  show Real.arcsin (-s / Complex.abs ⟨w, -s⟩) = -Real.arcsin (s / Complex.abs ⟨w, s⟩)
  rw [habs, neg_div, Real.arcsin_neg]

/-- Evaluation of the torch quaternion-to-axis-angle converter at the unit
quaternion `(0, 1, 0, 0)` (rotation by π about the x-axis). -/
lemma qaa_at_x_pi : quaternion_to_angle_axis_torch ⟨0, 1, 0, 0⟩ = ⟨-Real.pi, 0, 0⟩ := by
  have hnorm : qaaNormalizer ⟨0, 1, 0, 0⟩ = 1 := by
    simp [qaaNormalizer]
  have h1 : qaa1 ⟨0, 1, 0, 0⟩ = 1 := by simp [qaa1, hnorm]
  have h2 : qaa2 ⟨0, 1, 0, 0⟩ = 0 := by simp [qaa2]
  have h3 : qaa3 ⟨0, 1, 0, 0⟩ = 0 := by simp [qaa3]
  have hs2 : sinSquared ⟨0, 1, 0, 0⟩ = 1 := by simp [sinSquared, h1, h2, h3]
  have hmask : sinSquared ⟨0, 1, 0, 0⟩ > eps := by rw [hs2]; norm_num [eps]
  have hst : qaaSinTheta ⟨0, 1, 0, 0⟩ = 1 := by simp [qaaSinTheta, hs2]
  have hct : qaaCosTheta ⟨0, 1, 0, 0⟩ = 0 := by simp [qaaCosTheta]
  have hmt : qaaCosTheta ⟨0, 1, 0, 0⟩ < eps := by rw [hct]; norm_num [eps]
  have he : (0 : ℝ) < eps := by norm_num [eps]
  have hth : qaaTheta ⟨0, 1, 0, 0⟩ = -(Real.pi / 2) := by
    simp only [qaaTheta, qaaMaskThetaNeg, qaaMaskThetaPos, hst, hct, neg_zero,
      if_pos hmt, if_pos he, mul_one, mul_zero, add_zero]
    exact atan2_neg_one_zero
  have hk : qaaK ⟨0, 1, 0, 0⟩ = -Real.pi := by
    simp only [qaaK, qaaMaskPos, qaaMaskNeg, if_pos hmask, hth, hst]
    ring
  simp [quaternion_to_angle_axis_torch, h1, h2, h3, hk]

/-- Evaluation of the torch quaternion-to-axis-angle converter at the
antipodal unit quaternion `(0, -1, 0, 0)` (the same rotation). -/
lemma qaa_at_x_pi_neg :
    quaternion_to_angle_axis_torch ⟨0, -1, 0, 0⟩ = ⟨Real.pi, 0, 0⟩ := by
  have hnorm : qaaNormalizer ⟨0, -1, 0, 0⟩ = 1 := by
    simp [qaaNormalizer]
  have h1 : qaa1 ⟨0, -1, 0, 0⟩ = -1 := by simp [qaa1, hnorm]
  have h2 : qaa2 ⟨0, -1, 0, 0⟩ = 0 := by simp [qaa2]
  have h3 : qaa3 ⟨0, -1, 0, 0⟩ = 0 := by simp [qaa3]
  have hs2 : sinSquared ⟨0, -1, 0, 0⟩ = 1 := by simp [sinSquared, h1, h2, h3]
  have hmask : sinSquared ⟨0, -1, 0, 0⟩ > eps := by rw [hs2]; norm_num [eps]
  have hst : qaaSinTheta ⟨0, -1, 0, 0⟩ = 1 := by simp [qaaSinTheta, hs2]
  have hct : qaaCosTheta ⟨0, -1, 0, 0⟩ = 0 := by simp [qaaCosTheta]
  have hmt : qaaCosTheta ⟨0, -1, 0, 0⟩ < eps := by rw [hct]; norm_num [eps]
  have he : (0 : ℝ) < eps := by norm_num [eps]
  have hth : qaaTheta ⟨0, -1, 0, 0⟩ = -(Real.pi / 2) := by
    simp only [qaaTheta, qaaMaskThetaNeg, qaaMaskThetaPos, hst, hct, neg_zero,
      if_pos hmt, if_pos he, mul_one, mul_zero, add_zero]
    exact atan2_neg_one_zero
  have hk : qaaK ⟨0, -1, 0, 0⟩ = -Real.pi := by
    simp only [qaaK, qaaMaskPos, qaaMaskNeg, if_pos hmask, hth, hst]
    ring
  simp [quaternion_to_angle_axis_torch, h1, h2, h3, hk]

/-- C6 counterexample: the unit quaternion `(0, 1, 0, 0)` and its antipode
are mapped to `(-π, 0, 0)` and `(π, 0, 0)`, which differ by `2π`, so
`quaternionToAxisAngle q ≈ quaternionToAxisAngle (-q)` fails at `q`. -/
theorem qaa_double_cover_counterexample :
    qnorm ⟨0, 1, 0, 0⟩ = 1 ∧
      quaternion_to_angle_axis_torch ⟨0, 1, 0, 0⟩ = ⟨-Real.pi, 0, 0⟩ ∧
      quaternion_to_angle_axis_torch ⟨0, -1, 0, 0⟩ = ⟨Real.pi, 0, 0⟩ ∧
      1e-5 < |(quaternion_to_angle_axis_torch ⟨0, 1, 0, 0⟩).x -
        (quaternion_to_angle_axis_torch ⟨0, -1, 0, 0⟩).x| := by
  refine ⟨by simp [qnorm], qaa_at_x_pi, qaa_at_x_pi_neg, ?_⟩
  rw [qaa_at_x_pi, qaa_at_x_pi_neg]
  have h : |(-Real.pi) - Real.pi| = 2 * Real.pi := by
    rw [abs_of_nonpos (by nlinarith [Real.pi_pos])]
    ring
  show (1e-5 : ℝ) < |(-Real.pi) - Real.pi|
  rw [h]
  nlinarith [Real.pi_gt_three]

/-- C6 amended: for every unit quaternion whose scalar part satisfies
`eps ≤ |w|` and whose vector part satisfies `sin_squared > eps`, the torch
converter maps antipodal quaternions to exactly the same axis-angle vector.
(The excluded band `|w| < eps` contains genuine failures, e.g. `(0,1,0,0)`.) -/
theorem qaa_double_cover_amended (q : Q4)
    (hunit : q.w * q.w + q.x * q.x + q.y * q.y + q.z * q.z = 1)
    (hw : eps ≤ |q.w|) (hs : eps < q.x * q.x + q.y * q.y + q.z * q.z) :
    quaternion_to_angle_axis_torch ⟨-q.w, -q.x, -q.y, -q.z⟩ =
      quaternion_to_angle_axis_torch q := by
  have hepspos : (0 : ℝ) < eps := by norm_num [eps]
  have hnorm1 : qaaNormalizer q = 1 := by
    simp only [qaaNormalizer]
    rw [hunit, Real.sqrt_one]
    norm_num
  have hnorm2 : qaaNormalizer ⟨-q.w, -q.x, -q.y, -q.z⟩ = 1 := by
    simp only [qaaNormalizer]
    rw [show -q.w * -q.w + -q.x * -q.x + -q.y * -q.y + -q.z * -q.z =
      q.w * q.w + q.x * q.x + q.y * q.y + q.z * q.z by ring, hunit, Real.sqrt_one]
    norm_num
  have hq1 : qaa1 q = q.x := by simp [qaa1, hnorm1]
  have hq2 : qaa2 q = q.y := by simp [qaa2, hnorm1]
  have hq3 : qaa3 q = q.z := by simp [qaa3, hnorm1]
  have hn1 : qaa1 ⟨-q.w, -q.x, -q.y, -q.z⟩ = -q.x := by simp [qaa1, hnorm2]
  have hn2 : qaa2 ⟨-q.w, -q.x, -q.y, -q.z⟩ = -q.y := by simp [qaa2, hnorm2]
  have hn3 : qaa3 ⟨-q.w, -q.x, -q.y, -q.z⟩ = -q.z := by simp [qaa3, hnorm2]
  have hs2q : sinSquared q = q.x * q.x + q.y * q.y + q.z * q.z := by
    simp [sinSquared, hq1, hq2, hq3]
  have hs2n : sinSquared ⟨-q.w, -q.x, -q.y, -q.z⟩ =
      q.x * q.x + q.y * q.y + q.z * q.z := by
    simp [sinSquared, hn1, hn2, hn3]
  have hmaskq : sinSquared q > eps := by rw [hs2q]; exact hs
  have hmaskn : sinSquared ⟨-q.w, -q.x, -q.y, -q.z⟩ > eps := by rw [hs2n]; exact hs
  have hstq : qaaSinTheta q = Real.sqrt (q.x * q.x + q.y * q.y + q.z * q.z) := by
    rw [qaaSinTheta, hs2q]
  have hstn : qaaSinTheta ⟨-q.w, -q.x, -q.y, -q.z⟩ =
      Real.sqrt (q.x * q.x + q.y * q.y + q.z * q.z) := by
    rw [qaaSinTheta, hs2n]
  have hctq : qaaCosTheta q = q.w := by simp [qaaCosTheta, hnorm1]
  have hctn : qaaCosTheta ⟨-q.w, -q.x, -q.y, -q.z⟩ = -q.w := by
    simp [qaaCosTheta, hnorm2]
  set s := Real.sqrt (q.x * q.x + q.y * q.y + q.z * q.z) with hs_def
  rcases le_abs.mp hw with hwpos | hwneg
  · -- `eps ≤ q.w`
    have hnl : ¬ q.w < eps := not_lt.mpr hwpos
    have hln : -q.w < eps := by linarith
    have hthq : qaaTheta q = atan2 s q.w := by
      simp only [qaaTheta, qaaMaskThetaNeg, qaaMaskThetaPos, hctq, hstq,
        if_neg hnl, mul_zero, mul_one, zero_add]
    have hthn : qaaTheta ⟨-q.w, -q.x, -q.y, -q.z⟩ = -atan2 s q.w := by
      simp only [qaaTheta, qaaMaskThetaNeg, qaaMaskThetaPos, hctn, hstn,
        if_pos hln, mul_one, mul_zero, add_zero, neg_neg]
      exact atan2_neg_y s q.w (le_trans hepspos.le hwpos)
    have hkq : qaaK q = 2 * atan2 s q.w / s := by
      simp only [qaaK, qaaMaskPos, qaaMaskNeg, if_pos hmaskq, hthq, hstq,
        mul_one, mul_zero, zero_add]
    have hkn : qaaK ⟨-q.w, -q.x, -q.y, -q.z⟩ = -(2 * atan2 s q.w / s) := by
      simp only [qaaK, qaaMaskPos, qaaMaskNeg, if_pos hmaskn, hthn, hstn,
        mul_one, mul_zero, zero_add]
      ring
    simp only [quaternion_to_angle_axis_torch, hq1, hq2, hq3, hn1, hn2, hn3,
      hkq, hkn, V3.mk.injEq]
    refine ⟨by ring, by ring, by ring⟩
  · -- `q.w ≤ -eps`
    have hlq : q.w < eps := by linarith
    have hnn : ¬ -q.w < eps := not_lt.mpr hwneg
    have hthq : qaaTheta q = -atan2 s (-q.w) := by
      simp only [qaaTheta, qaaMaskThetaNeg, qaaMaskThetaPos, hctq, hstq,
        if_pos hlq, mul_one, mul_zero, add_zero]
      exact atan2_neg_y s (-q.w) (le_trans hepspos.le hwneg)
    have hthn : qaaTheta ⟨-q.w, -q.x, -q.y, -q.z⟩ = atan2 s (-q.w) := by
      simp only [qaaTheta, qaaMaskThetaNeg, qaaMaskThetaPos, hctn, hstn,
        if_neg hnn, mul_zero, mul_one, zero_add]
    have hkq : qaaK q = -(2 * atan2 s (-q.w) / s) := by
      simp only [qaaK, qaaMaskPos, qaaMaskNeg, if_pos hmaskq, hthq, hstq,
        mul_one, mul_zero, zero_add]
      ring
    have hkn : qaaK ⟨-q.w, -q.x, -q.y, -q.z⟩ = 2 * atan2 s (-q.w) / s := by
      simp only [qaaK, qaaMaskPos, qaaMaskNeg, if_pos hmaskn, hthn, hstn,
        mul_one, mul_zero, zero_add]
    simp only [quaternion_to_angle_axis_torch, hq1, hq2, hq3, hn1, hn2, hn3,
      hkq, hkn, V3.mk.injEq]
    refine ⟨by ring, by ring, by ring⟩

/-- Witness for `qaa_double_cover_amended` at the unit quaternion
`(3/5, 4/5, 0, 0)`. -/
theorem qaa_double_cover_amended_witness :
    ((3 : ℝ) / 5) * (3 / 5) + (4 / 5) * (4 / 5) + 0 * 0 + 0 * 0 = 1 ∧
      eps ≤ |(3 : ℝ) / 5| ∧ eps < (4 / 5 : ℝ) * (4 / 5) + 0 * 0 + 0 * 0 ∧
      quaternion_to_angle_axis_torch ⟨-(3 / 5), -(4 / 5), -0, -0⟩ =
        quaternion_to_angle_axis_torch ⟨3 / 5, 4 / 5, 0, 0⟩ := by
  have h1 : ((3 : ℝ) / 5) * (3 / 5) + (4 / 5) * (4 / 5) + 0 * 0 + 0 * 0 = 1 := by
    norm_num
  have h2 : eps ≤ |(3 : ℝ) / 5| := by
    rw [abs_of_nonneg (by norm_num : (0 : ℝ) ≤ 3 / 5)]
    norm_num [eps]
  have h3 : eps < (4 / 5 : ℝ) * (4 / 5) + 0 * 0 + 0 * 0 := by norm_num [eps]
  exact ⟨h1, h2, h3, qaa_double_cover_amended ⟨3 / 5, 4 / 5, 0, 0⟩ h1 h2 h3⟩

/-! ### C7: scalar numpy reference path vs vectorized torch path -/

/-- Evaluation of the scalar numpy reference converter at `(0, 1, 0, 0)`:
here `cos_theta = 0` is not `< 0.0`, so the reference takes the positive
`atan2` branch and returns `(π, 0, 0)`. -/
lemma qaa_numpy_at_x_pi :
    quaternion_to_angle_axis_numpy ⟨0, 1, 0, 0⟩ = ⟨Real.pi, 0, 0⟩ := by
  simp [quaternion_to_angle_axis_numpy, atan2_one_zero]
  ring

/-- C7: the scalar numpy reference path and the vectorized torch path
disagree at the unit quaternion `(0, 1, 0, 0)`: the reference returns
`(π, 0, 0)` while the torch path (whose quadrant test is `cos_theta < eps`
rather than the reference's `cos_theta < 0.0`) returns `(-π, 0, 0)` — a
difference of `2π`, far beyond floating-point tolerance. -/
theorem qaa_numpy_torch_paths_disagree :
    quaternion_to_angle_axis_numpy ⟨0, 1, 0, 0⟩ = ⟨Real.pi, 0, 0⟩ ∧
      quaternion_to_angle_axis_torch ⟨0, 1, 0, 0⟩ = ⟨-Real.pi, 0, 0⟩ ∧
      1e-5 < |(quaternion_to_angle_axis_numpy ⟨0, 1, 0, 0⟩).x -
        (quaternion_to_angle_axis_torch ⟨0, 1, 0, 0⟩).x| := by
  refine ⟨qaa_numpy_at_x_pi, qaa_at_x_pi, ?_⟩
  rw [qaa_numpy_at_x_pi, qaa_at_x_pi]
  have h : |Real.pi - -Real.pi| = 2 * Real.pi := by
    rw [abs_of_nonneg (by nlinarith [Real.pi_pos])]
    ring
  show (1e-5 : ℝ) < |Real.pi - -Real.pi|
  rw [h]
  nlinarith [Real.pi_gt_three]

/-! ### C1: the axis-angle round trip on the torch path -/

/-- Stage A: `angle_axis_to_rotation_matrix_torch` on an x-axis rotation
vector `(t, 0, 0)` with `t² > eps` takes the Rodrigues branch; note the
`t / (t + eps)` attenuation from the zero-division guard. -/
lemma aaRM_xaxis (t : ℝ) (ht : 0 < t) (hm : eps < t * t) :
    angle_axis_to_rotation_matrix_torch ⟨t, 0, 0⟩ =
      !![Real.cos t + (t / (t + eps)) * (t / (t + eps)) * (1 - Real.cos t), 0, 0, 0;
         0, Real.cos t, -((t / (t + eps)) * Real.sin t), 0;
         0, (t / (t + eps)) * Real.sin t, Real.cos t, 0;
         0, 0, 0, 1] := by
  have hth2 : aa_theta2 ⟨t, 0, 0⟩ = t * t := by simp [aa_theta2]
  have hsq : Real.sqrt (t * t) = t := Real.sqrt_mul_self ht.le
  ext i j
  fin_cases i <;> fin_cases j <;>
    simp [angle_axis_to_rotation_matrix_torch, aa_blend, aa_mask_pos, aa_mask_neg,
      rmat3_normal, rmat3_taylor, hth2, hsq, hm, Matrix.vecHead, Matrix.vecTail,
      Function.comp] <;> ring

/-- Stage B: `rotation_matrix_to_quaternion_torch` on a matrix of the x-axis
rotation shape with `R22 = c < eps < p = R00` selects branch 0 and returns a
quaternion supported on the `(w, x)` components. -/
lemma rmq_xaxis (p c sg : ℝ) (h2 : c < eps) (h01 : c < p) :
    rotation_matrix_to_quaternion_torch
        !![p, 0, 0, 0; 0, c, -sg, 0; 0, sg, c, 0; 0, 0, 0, 1] =
      ⟨0.5 * (2 * sg / Real.sqrt (1 + p - c - c)),
       0.5 * ((1 + p - c - c) / Real.sqrt (1 + p - c - c)), 0, 0⟩ := by
  rw [rmq_eq_branch0 _ (by simpa using h2) (by simpa using h01)]
  have e00 : (!![p, 0, 0, 0; 0, c, -sg, 0; 0, sg, c, 0; 0, 0, 0, 1] : Mat4) 0 0 = p := by
    simp
  have e11 : (!![p, 0, 0, 0; 0, c, -sg, 0; 0, sg, c, 0; 0, 0, 0, 1] : Mat4) 1 1 = c := by
    simp
  have e22 : (!![p, 0, 0, 0; 0, c, -sg, 0; 0, sg, c, 0; 0, 0, 0, 1] : Mat4) 2 2 = c := by
    simp [Matrix.vecHead, Matrix.vecTail, Function.comp]
  have e21 : (!![p, 0, 0, 0; 0, c, -sg, 0; 0, sg, c, 0; 0, 0, 0, 1] : Mat4) 2 1 = sg := by
    simp [Matrix.vecHead, Matrix.vecTail, Function.comp]
  have e12 : (!![p, 0, 0, 0; 0, c, -sg, 0; 0, sg, c, 0; 0, 0, 0, 1] : Mat4) 1 2 = -sg := by
    simp [Matrix.vecHead, Matrix.vecTail, Function.comp]
  have e10 : (!![p, 0, 0, 0; 0, c, -sg, 0; 0, sg, c, 0; 0, 0, 0, 1] : Mat4) 1 0 = 0 := by
    simp
  have e01 : (!![p, 0, 0, 0; 0, c, -sg, 0; 0, sg, c, 0; 0, 0, 0, 1] : Mat4) 0 1 = 0 := by
    simp
  have e02 : (!![p, 0, 0, 0; 0, c, -sg, 0; 0, sg, c, 0; 0, 0, 0, 1] : Mat4) 0 2 = 0 := by
    simp [Matrix.vecHead, Matrix.vecTail, Function.comp]
  have e20 : (!![p, 0, 0, 0; 0, c, -sg, 0; 0, sg, c, 0; 0, 0, 0, 1] : Mat4) 2 0 = 0 := by
    simp [Matrix.vecHead, Matrix.vecTail, Function.comp]
  rw [e00, e11, e22, e21, e12, e10, e01, e02, e20]
  simp only [Q4.mk.injEq]
  refine ⟨by ring, by ring, by ring, by ring⟩

lemma qaaCosTheta_wx0 (W X : ℝ) :
    qaaCosTheta ⟨W, X, 0, 0⟩ = W * (1 / Real.sqrt (W * W + X * X)) := by
  simp [qaaCosTheta, qaaNormalizer]

lemma sinSquared_wx0 (W X : ℝ) :
    sinSquared ⟨W, X, 0, 0⟩ =
      (X * (1 / Real.sqrt (W * W + X * X))) * (X * (1 / Real.sqrt (W * W + X * X))) := by
  simp [sinSquared, qaa1, qaa2, qaa3, qaaNormalizer]

/-- `atan2` of a point in the open third quadrant lies in `(-π, -π/2]`. -/
lemma atan2_third_quadrant_le (s c : ℝ) (hs : 0 < s) (hc : 0 < c) :
    atan2 (-s) (-c) ≤ -(Real.pi / 2) := by
  unfold atan2
  rw [Complex.arg_of_re_neg_of_im_neg (by simpa using hc) (by simpa using hs)]
  have h := Real.arcsin_le_pi_div_two
    ((-(⟨-c, -s⟩ : ℂ)).im / Complex.abs ⟨-c, -s⟩)
  linarith

/-- Stage C: the torch quaternion-to-axis-angle converter on a quaternion
`(W, X, 0, 0)` with `0 < W`, `0 < X` lying in the `cos_theta < eps` band
returns an x-component `2 * atan2(-sin_theta, -cos_theta) < -3`. -/
lemma qaa_wx0_lt (W X : ℝ) (hW : 0 < W) (hX : 0 < X)
    (hct : qaaCosTheta ⟨W, X, 0, 0⟩ < eps)
    (hs2 : eps < sinSquared ⟨W, X, 0, 0⟩) :
    (quaternion_to_angle_axis_torch ⟨W, X, 0, 0⟩).x < -3 := by
  have hpos : 0 < W * W + X * X := by nlinarith
  have hNpos : 0 < Real.sqrt (W * W + X * X) := Real.sqrt_pos.mpr hpos
  have hnorm : qaaNormalizer ⟨W, X, 0, 0⟩ = 1 / Real.sqrt (W * W + X * X) := by
    simp [qaaNormalizer]
  have hq1 : qaa1 ⟨W, X, 0, 0⟩ = X * (1 / Real.sqrt (W * W + X * X)) := by
    rw [qaa1, hnorm]
  have hq1pos : 0 < qaa1 ⟨W, X, 0, 0⟩ := by rw [hq1]; positivity
  have hs20 : sinSquared ⟨W, X, 0, 0⟩ = qaa1 ⟨W, X, 0, 0⟩ * qaa1 ⟨W, X, 0, 0⟩ := by
    rw [sinSquared_wx0, hq1]
  have hst : qaaSinTheta ⟨W, X, 0, 0⟩ = qaa1 ⟨W, X, 0, 0⟩ := by
    rw [qaaSinTheta, hs20, Real.sqrt_mul_self hq1pos.le]
  have hctpos : 0 < qaaCosTheta ⟨W, X, 0, 0⟩ := by
    rw [qaaCosTheta_wx0]; positivity
  have hth : qaaTheta ⟨W, X, 0, 0⟩ =
      atan2 (-(qaaSinTheta ⟨W, X, 0, 0⟩)) (-(qaaCosTheta ⟨W, X, 0, 0⟩)) := by
    simp only [qaaTheta, qaaMaskThetaNeg, qaaMaskThetaPos, if_pos hct,
      mul_one, mul_zero, add_zero]
  have hthle : qaaTheta ⟨W, X, 0, 0⟩ ≤ -(Real.pi / 2) := by
    rw [hth, hst]
    exact atan2_third_quadrant_le _ _ hq1pos hctpos
  have hk : qaaK ⟨W, X, 0, 0⟩ =
      2 * qaaTheta ⟨W, X, 0, 0⟩ / qaa1 ⟨W, X, 0, 0⟩ := by
    simp only [qaaK, qaaMaskPos, qaaMaskNeg, if_pos hs2, hst,
      mul_one, mul_zero, zero_add]
  have hx : (quaternion_to_angle_axis_torch ⟨W, X, 0, 0⟩).x =
      2 * qaaTheta ⟨W, X, 0, 0⟩ := by
    show qaa1 ⟨W, X, 0, 0⟩ * qaaK ⟨W, X, 0, 0⟩ = 2 * qaaTheta ⟨W, X, 0, 0⟩
    rw [hk, mul_comm, div_mul_cancel₀ _ (ne_of_gt hq1pos)]
  rw [hx]
  nlinarith [Real.pi_gt_three, hthle]

/-- The ratio of the two nonzero quaternion components produced by
`rmq_xaxis`. -/
lemma WX_ratio (u t0 : ℝ) (ht0 : 0 < t0) :
    (0.5 * (2 * u / Real.sqrt t0)) / (0.5 * (t0 / Real.sqrt t0)) = 2 * u / t0 := by
  have hsq : 0 < Real.sqrt t0 := Real.sqrt_pos.mpr ht0
  have h1 : Real.sqrt t0 ≠ 0 := ne_of_gt hsq
  have h2 : t0 ≠ 0 := ne_of_gt ht0
  field_simp
  linear_combination (-u) * Real.mul_self_sqrt ht0.le

set_option maxHeartbeats 1000000 in
/-- Round-trip failure, generic form: for an x-axis rotation vector `(t,0,0)`
whose angle lies so close to π that `sin t < eps` while `cos t < -0.9`, the
torch round trip lands in the `cos_theta < eps` band of
`quaternion_to_angle_axis_torch` and returns an x-component below `-3`
(roughly `t - 2π`) instead of `t`. -/
lemma aa_round_trip_aux (t : ℝ) (ht : 0 < t) (hm : eps < t * t)
    (hc9 : Real.cos t < -(0.9 : ℝ)) (hspos : 0 < Real.sin t)
    (hslt : Real.sin t < eps)
    (ha2 : (0.98 : ℝ) < (t / (t + eps)) * (t / (t + eps)))
    (hale : t / (t + eps) ≤ 1) (hapos : 0 < t / (t + eps)) :
    (aaRoundTrip ⟨t, 0, 0⟩).x < -3 := by
  have he2 : (0 : ℝ) < eps := by norm_num [eps]
  have hA := aaRM_xaxis t ht hm
  set c := Real.cos t with hc_def
  set s := Real.sin t with hs_def
  set a := t / (t + eps) with ha_def
  clear_value c s a
  have hp : c < c + a * a * (1 - c) := by nlinarith
  have hceps : c < eps := by linarith
  have hB := rmq_xaxis (c + a * a * (1 - c)) c (a * s) hceps hp
  have hstep : aaRoundTrip ⟨t, 0, 0⟩ =
      quaternion_to_angle_axis_torch
        ⟨0.5 * (2 * (a * s) / Real.sqrt (1 + (c + a * a * (1 - c)) - c - c)),
         0.5 * ((1 + (c + a * a * (1 - c)) - c - c) /
           Real.sqrt (1 + (c + a * a * (1 - c)) - c - c)), 0, 0⟩ := by
    rw [aaRoundTrip, rotation_matrix_to_angle_axis, hA, hB]
  have ht07 : (3.7 : ℝ) < 1 + (c + a * a * (1 - c)) - c - c := by nlinarith
  set t0 := 1 + (c + a * a * (1 - c)) - c - c with ht0_def
  clear_value t0
  have ht0pos : (0 : ℝ) < t0 := by linarith
  have hsq : (0 : ℝ) < Real.sqrt t0 := Real.sqrt_pos.mpr ht0pos
  set W := 0.5 * (2 * (a * s) / Real.sqrt t0) with hW_def
  set X := 0.5 * (t0 / Real.sqrt t0) with hX_def
  clear_value W X
  have hW : 0 < W := by
    rw [hW_def]
    have h1 : 0 < a * s := mul_pos hapos hspos
    have h2 : 0 < 2 * (a * s) / Real.sqrt t0 := div_pos (by linarith) hsq
    linarith
  have hX : 0 < X := by
    rw [hX_def]
    have h2 : 0 < t0 / Real.sqrt t0 := div_pos ht0pos hsq
    linarith
  have hWX : W / X = 2 * (a * s) / t0 := by
    rw [hW_def, hX_def]
    exact WX_ratio (a * s) t0 ht0pos
  have hsmall : 2 * (a * s) / t0 < eps := by
    rw [div_lt_iff (by linarith : (0 : ℝ) < t0)]
    have p1 : 0 ≤ (1 - a) * s := mul_nonneg (by linarith) hspos.le
    have p2 : 0 < eps * (t0 - 3.7) := mul_pos he2 (by linarith)
    nlinarith [p1, p2]
  have hct : qaaCosTheta ⟨W, X, 0, 0⟩ < eps := by
    rw [qaaCosTheta_wx0]
    have hXle : X ≤ Real.sqrt (W * W + X * X) := by
      calc X = Real.sqrt (X * X) := (Real.sqrt_mul_self hX.le).symm
        _ ≤ Real.sqrt (W * W + X * X) := Real.sqrt_le_sqrt (by nlinarith)
    have hNpos : 0 < Real.sqrt (W * W + X * X) := lt_of_lt_of_le hX hXle
    have hle : W * (1 / Real.sqrt (W * W + X * X)) ≤ W / X := by
      rw [mul_one_div]
      exact div_le_div_of_nonneg_left hW.le hX hXle
    calc W * (1 / Real.sqrt (W * W + X * X)) ≤ W / X := hle
      _ = 2 * (a * s) / t0 := hWX
      _ < eps := hsmall
  have hWltX : W < X := by
    have h1 : W / X < 1 := by
      rw [hWX]
      calc 2 * (a * s) / t0 < eps := hsmall
        _ < 1 := by norm_num [eps]
    exact (div_lt_one hX).mp h1
  have hs2 : eps < sinSquared ⟨W, X, 0, 0⟩ := by
    rw [sinSquared_wx0]
    have hsum : (0 : ℝ) < W * W + X * X := by nlinarith
    have hN2 : Real.sqrt (W * W + X * X) * Real.sqrt (W * W + X * X) =
        W * W + X * X := Real.mul_self_sqrt hsum.le
    have hexp : (X * (1 / Real.sqrt (W * W + X * X))) *
        (X * (1 / Real.sqrt (W * W + X * X))) =
        X * X / (Real.sqrt (W * W + X * X) * Real.sqrt (W * W + X * X)) := by
      ring
    rw [hexp, hN2, lt_div_iff hsum]
    have heh : eps < 1 / 2 := by norm_num [eps]
    have k1 : 0 < (X - W) * (X + W) := mul_pos (by linarith) (by linarith)
    have k2 : 0 < (1 / 2 - eps) * (W * W + X * X) :=
      mul_pos (by linarith) hsum
    linarith [k1, k2]
  rw [hstep]
  exact qaa_wx0_lt W X hW hX hct hs2

/-- C1: the round trip
`rotation_matrix_to_angle_axis (angle_axis_to_rotation_matrix v)` on the
torch path FAILS for the axis-angle vector `v = (3.141592, 0, 0)` of norm
`< π`: the returned x-component is below `-3` (≈ `v - 2π`), more than `6`
away from `3.141592`, far beyond the specified `1e-5` tolerance.  The slip
is `quaternion_to_angle_axis_torch`'s quadrant test `cos_theta < eps` (the
reference implementation tests `cos_theta < 0`). -/
theorem aa_round_trip_failure :
    Real.sqrt (aa_theta2 ⟨3.141592, 0, 0⟩) < Real.pi ∧
      (aaRoundTrip ⟨3.141592, 0, 0⟩).x < -3 ∧
      1e-5 < |(aaRoundTrip ⟨3.141592, 0, 0⟩).x - 3.141592| := by
  have hpi1 : (3.141592 : ℝ) < Real.pi := Real.pi_gt_d6
  have hpi2 : Real.pi < 3.141593 := Real.pi_lt_d6
  have he : eps = 1e-6 := rfl
  have hdpos : (0 : ℝ) < Real.pi - 3.141592 := by linarith
  have hdlt : Real.pi - 3.141592 < 1e-6 := by linarith
  -- bounds on cos and sin at 3.141592 via the complement angle
  have hcos_sub : Real.cos (3.141592 : ℝ) = -Real.cos (Real.pi - 3.141592) := by
    have h := Real.cos_pi_sub (Real.pi - 3.141592)
    have h2 : Real.pi - (Real.pi - 3.141592) = (3.141592 : ℝ) := by ring
    rw [h2] at h
    exact h
  have hcosd : (0.9 : ℝ) < Real.cos (Real.pi - 3.141592) := by
    have h1 := Real.one_sub_sq_div_two_lt_cos hdpos.ne'
    nlinarith
  have hc9 : Real.cos (3.141592 : ℝ) < -(0.9 : ℝ) := by
    rw [hcos_sub]; linarith
  have hsin_sub : Real.sin (3.141592 : ℝ) = Real.sin (Real.pi - 3.141592) := by
    have h := Real.sin_pi_sub (Real.pi - 3.141592)
    have h2 : Real.pi - (Real.pi - 3.141592) = (3.141592 : ℝ) := by ring
    rw [h2] at h
    exact h
  have hspos : 0 < Real.sin (3.141592 : ℝ) :=
    Real.sin_pos_of_pos_of_lt_pi (by norm_num) hpi1
  have hslt : Real.sin (3.141592 : ℝ) < eps := by
    rw [hsin_sub, he]
    calc Real.sin (Real.pi - 3.141592) < Real.pi - 3.141592 := Real.sin_lt hdpos
      _ < 1e-6 := hdlt
  have ha2 : (0.98 : ℝ) <
      (3.141592 / (3.141592 + eps)) * (3.141592 / (3.141592 + eps)) := by
    rw [he]; norm_num
  have hale : (3.141592 : ℝ) / (3.141592 + eps) ≤ 1 := by
    rw [he, div_le_one (by norm_num)]; norm_num
  have hapos : (0 : ℝ) < 3.141592 / (3.141592 + eps) := by
    rw [he]; norm_num
  have hmain : (aaRoundTrip ⟨3.141592, 0, 0⟩).x < -3 :=
    aa_round_trip_aux 3.141592 (by norm_num) (by rw [he]; norm_num)
      hc9 hspos hslt ha2 hale hapos
  refine ⟨?_, hmain, ?_⟩
  · have hth2 : aa_theta2 ⟨3.141592, 0, 0⟩ = (3.141592 : ℝ) * 3.141592 := by
      simp [aa_theta2]
    rw [hth2, Real.sqrt_mul_self (by norm_num)]
    exact hpi1
  · have h1 : (aaRoundTrip ⟨3.141592, 0, 0⟩).x - 3.141592 < -6 := by linarith
    have h2 := neg_le_abs ((aaRoundTrip ⟨3.141592, 0, 0⟩).x - 3.141592)
    linarith

/-! ### C8/C9: dual-path dispatch, input validation and error behaviour -/

/-- A torch tensor as seen by the dispatchers: a shape plus flattened data. -/
structure PyTensor where
  shape : List ℕ
  data : List ℝ

/-- The runtime type of a dispatcher argument: a 1-D numpy array, a torch
tensor, or any other Python value (identified by its type name). -/
inductive PyValue where
  | np (data : List ℝ)
  | tensor (t : PyTensor)
  | other (tyName : String)

/-- The Python exceptions the dispatchers can raise. -/
inductive PyError where
  | valueError (msg : String)
  | notImplementedError (msg : String)
  | nameError (missing : String)
  | assertionError (msg : String)
deriving DecidableEq

/-- Split flattened `(N, 3)` tensor data into rows. -/
def chunk3 : List ℝ → List V3
  | a :: b :: c :: rest => ⟨a, b, c⟩ :: chunk3 rest
  | _ => []

/-- Split flattened `(N, 4)` tensor data into rows. -/
def chunk4 : List ℝ → List Q4
  | a :: b :: c :: d :: rest => ⟨a, b, c, d⟩ :: chunk4 rest
  | _ => []

/-- `angle_axis_to_rotation_matrix_numpy` on a 1-D numpy array of any
length: `theta2 = angle_axis.dot(angle_axis)` sums the squares of all
components, components 0-2 are read, and no shape validation is performed. -/
noncomputable def angle_axis_to_rotation_matrix_numpy (l : List ℝ) : Mat4 :=
  let theta2 := (l.map fun x => x * x).sum
  if npEps < theta2 then
    let theta := Real.sqrt theta2
    let wx := l.getD 0 0 / theta
    let wy := l.getD 1 0 / theta
    let wz := l.getD 2 0 / theta
    let ct := Real.cos theta
    let st := Real.sin theta
    !![ct + wx * wx * (1 - ct), wx * wy * (1 - ct) - wz * st, wy * st + wx * wz * (1 - ct), 0;
       wz * st + wx * wy * (1 - ct), ct + wy * wy * (1 - ct), -wx * st + wy * wz * (1 - ct), 0;
       -wy * st + wx * wz * (1 - ct), wx * st + wy * wz * (1 - ct), ct + wz * wz * (1 - ct), 0;
       0, 0, 0, 1]
  else
    !![1, -(l.getD 2 0), l.getD 1 0, 0;
       l.getD 2 0, 1, -(l.getD 0 0), 0;
       -(l.getD 1 0), l.getD 0 0, 1, 0;
       0, 0, 0, 1]

/-- The `angle_axis_to_rotation_matrix` dispatcher: numpy arrays go to the
(unvalidated) numpy path; tensors are checked for shape `(N, 3)` and go to
the batched torch path; anything else raises
`NotImplementedError('Not suported type {}'.format(type(angle_axis)))`. -/
noncomputable def angle_axis_to_rotation_matrix :
    PyValue → Except PyError (Mat4 ⊕ List Mat4)
  | .np l => .ok (.inl (angle_axis_to_rotation_matrix_numpy l))
  | .tensor t =>
      if t.shape.length = 2 ∧ t.shape.getD 1 0 = 3 then
        .ok (.inr ((chunk3 t.data).map angle_axis_to_rotation_matrix_torch))
      else .error (.valueError "Input must be a two dimensional torch.Tensor.")
  | .other _ty => .error (.notImplementedError ("Not suported type " ++ _ty))

/-- The `quaternion_to_angle_axis` dispatcher.  The numpy branch asserts a
length-4 input; the tensor branch validates shape `(N, 4)`.  In the
unsupported-type branch the source evaluates
`'Not suported type {}'.format(type(rotation_matrix))`, but `rotation_matrix`
is not a name in that function's scope, so Python raises
`NameError: name 'rotation_matrix' is not defined` while building the
message and the `NotImplementedError` is never constructed. -/
noncomputable def quaternion_to_angle_axis :
    PyValue → Except PyError (V3 ⊕ List V3)
  | .np l =>
      if l.length = 4 then
        .ok (.inl (quaternion_to_angle_axis_numpy
          ⟨l.getD 0 0, l.getD 1 0, l.getD 2 0, l.getD 3 0⟩))
      else .error (.assertionError "Input must be a vector of length 4")
  | .tensor t =>
      if t.shape.length = 2 ∧ t.shape.getD 1 0 = 4 then
        .ok (.inr ((chunk4 t.data).map quaternion_to_angle_axis_torch))
      else .error (.valueError "Input must be a two dimensional torch.Tensor.")
  | .other _ty => .error (.nameError "rotation_matrix")

/-- Whether an `Except` computation succeeded. -/
def exceptOk {ε α : Type} : Except ε α → Bool
  | .ok _ => true
  | .error _ => false

/-- C8: on an unsupported input type, `quaternion_to_angle_axis` does NOT
fail with an unsupported-type error naming the received type: it raises a
`NameError` for the out-of-scope variable `rotation_matrix` (the message
formatting references the wrong name), while its sibling dispatcher
`angle_axis_to_rotation_matrix` does produce the
`NotImplementedError` naming the received type. -/
theorem quaternion_dispatch_name_error :
    quaternion_to_angle_axis (.other "list") =
        .error (.nameError "rotation_matrix") ∧
      angle_axis_to_rotation_matrix (.other "list") =
        .error (.notImplementedError ("Not suported type " ++ "list")) :=
  ⟨rfl, rfl⟩

/-- C9 counterexample: a 1-D numpy array of width 4 (not a 2-D array of
width 3, nor convertible to one) is accepted by the numpy dispatch path of
`angle_axis_to_rotation_matrix` without any error. -/
theorem aa_numpy_no_validation :
    exceptOk (angle_axis_to_rotation_matrix (.np [1, 0, 0, 5])) = true := rfl

/-- C9 amended: only the torch dispatch path of
`angle_axis_to_rotation_matrix` validates its input, failing with a
`ValueError` whenever the tensor's shape is not `(N, 3)`; the numpy
reference path performs no validation at all. -/
theorem aa_torch_dispatch_validates (t : PyTensor)
    (h : ¬ (t.shape.length = 2 ∧ t.shape.getD 1 0 = 3)) :
    angle_axis_to_rotation_matrix (.tensor t) =
      .error (.valueError "Input must be a two dimensional torch.Tensor.") := by
  simp only [angle_axis_to_rotation_matrix]
  rw [if_neg h]

/-- Witness for `aa_torch_dispatch_validates` at a 1-D tensor of shape
`[4]`. -/
theorem aa_torch_dispatch_validates_witness :
    ¬ (([4] : List ℕ).length = 2 ∧ ([4] : List ℕ).getD 1 0 = 3) ∧
      angle_axis_to_rotation_matrix (.tensor ⟨[4], [1, 0, 0, 5]⟩) =
        .error (.valueError "Input must be a two dimensional torch.Tensor.") := by
  have h : ¬ (([4] : List ℕ).length = 2 ∧ ([4] : List ℕ).getD 1 0 = 3) := by decide
  exact ⟨h, aa_torch_dispatch_validates ⟨[4], [1, 0, 0, 5]⟩ h⟩

end TG
